import Mathlib

/-
  Verification of the rusty-yunet conversion layer (src/lib.rs, src/rect.rs).

  Embedding conventions:
  * `f32` values are modelled as exact rationals (ℚ).  Every IEEE-754 single
    value is a rational, and the arithmetic the layer performs on already-cast
    values (division in `normalized_rectangle`, `min` in `size`) is modelled
    as exact rational arithmetic.
  * The integer-to-`f32` casts the layer performs (`i32 as f32` on the raw
    rectangle and landmark coordinates, `usize as f32` on the detection
    dimensions) are modelled faithfully: IEEE-754 round-to-nearest, ties to
    even (`f32RoundPos` / `f32RoundInt`).  This conversion is exactly
    specified and is lossy above 2^24, which several claims depend on.
  * The `usize as i32` casts in `detect_faces` truncate to 32 bits and
    reinterpret as two's complement (`i32Wrap` / `i32OfNat`), as Rust `as`
    casts do; the `i32` multiplication `3 * (width as i32)` wraps.
  * The native detector behind the cxx bridge is opaque; following the
    repository's own design note it is modelled as an abstract capability:
    a function from the forwarded buffer and `i32` arguments to a list of
    raw `BridgeFace` records.  `detect_faces` is parametric in it.
  * Rust `usize` is modelled as `Nat`, `i32` raw fields as `Int`.
-/

/-- Bit length of a natural number, with explicit structural fuel so that the
kernel can evaluate it.  64 units of fuel cover every value a `usize` can
hold. -/
def bitLenAux : Nat → Nat → Nat
  | 0, _ => 0
  | fuel + 1, n => if n = 0 then 0 else bitLenAux fuel (n / 2) + 1

/-- Number of binary digits of `n` (0 for 0), for `n < 2 ^ 64`. -/
def bitLen (n : Nat) : Nat := bitLenAux 64 n

/-- IEEE-754 single-precision rounding of a nonnegative integer:
round-to-nearest, ties to even, 24 significant bits.  Returns the exact
integer value of the resulting `f32` (for inputs below `2 ^ 64` the result
never overflows to infinity). -/
def f32RoundPos (m : Nat) : Nat :=
  let k := bitLen m - 1
  if k ≤ 23 then m
  else
    let d := 2 ^ (k - 23)
    let q := m / d
    let r := m % d
    if 2 * r < d then q * d
    else if d < 2 * r then (q + 1) * d
    else if q % 2 = 0 then q * d else (q + 1) * d

/-- IEEE-754 single-precision rounding of a signed integer: the exact value
of `n as f32` for any `i32` (and any `i64` small enough not to overflow). -/
def f32RoundInt (n : Int) : Int :=
  if n < 0 then -(f32RoundPos n.natAbs : Int) else (f32RoundPos n.natAbs : Int)

/-- Two's-complement wrap of an integer into the `i32` range
`[-2 ^ 31, 2 ^ 31)`: the semantics of overflowing `i32` arithmetic and of
truncating `as i32` casts. -/
def i32Wrap (z : Int) : Int := (z + 2 ^ 31) % 2 ^ 32 - 2 ^ 31

/-- The value of `n as i32` for `n : usize`. -/
def i32OfNat (n : Nat) : Int := i32Wrap n

/-- src/rect.rs: axis-aligned rectangle, four `f32` fields. -/
structure Rect where
  x : ℚ
  y : ℚ
  w : ℚ
  h : ℚ
deriving DecidableEq

/-- src/rect.rs: `Rect::with_size(x, y, w, h)`. -/
def Rect.with_size (x y w h : ℚ) : Rect := ⟨x, y, w, h⟩

/-- glam::Vec2: a pair of `f32` components. -/
structure Vec2 where
  x : ℚ
  y : ℚ
deriving DecidableEq

/-- src/lib.rs: the five named landmark points. -/
structure FaceLandmarks where
  right_eye : Vec2
  left_eye : Vec2
  nose : Vec2
  mouth_right : Vec2
  mouth_left : Vec2
deriving DecidableEq

/-- src/lib.rs: `FaceLandmarks::from_yunet_landmark_array(&[i32; 10])`.
Each component is `landmarks[i] as f32`. -/
def FaceLandmarks.from_yunet_landmark_array (landmarks : Fin 10 → Int) :
    FaceLandmarks :=
  { right_eye := ⟨(f32RoundInt (landmarks 0) : ℚ), (f32RoundInt (landmarks 1) : ℚ)⟩
    left_eye := ⟨(f32RoundInt (landmarks 2) : ℚ), (f32RoundInt (landmarks 3) : ℚ)⟩
    nose := ⟨(f32RoundInt (landmarks 4) : ℚ), (f32RoundInt (landmarks 5) : ℚ)⟩
    mouth_right := ⟨(f32RoundInt (landmarks 6) : ℚ), (f32RoundInt (landmarks 7) : ℚ)⟩
    mouth_left := ⟨(f32RoundInt (landmarks 8) : ℚ), (f32RoundInt (landmarks 9) : ℚ)⟩ }

/-- src/lib.rs: the two declared error kinds. -/
inductive YuNetError where
  | InvalidFile : YuNetError
  | FaceDetectionFailed : YuNetError
deriving DecidableEq

/-- src/lib.rs (ffi module): the raw record the native detector returns,
one per detected face: `score: f32`, `x, y, w, h: i32`, `lm: [i32; 10]`. -/
structure BridgeFace where
  score : ℚ
  x : Int
  y : Int
  w : Int
  h : Int
  lm : Fin 10 → Int

/-- src/lib.rs: the `Face` record. `detection_dimensions` is
`(width, height) : (usize, usize)`. -/
structure Face where
  confidence : ℚ
  rectangle : Rect
  detection_dimensions : Nat × Nat
  landmarks : FaceLandmarks

/-- src/lib.rs: `Face::from_yunet_bridge_face(&BridgeFace, (usize, usize))`.
Copies the score, casts x/y/w/h with `as f32`, builds the landmarks, stores
the dimensions unchanged. -/
def Face.from_yunet_bridge_face (face_rect : BridgeFace)
    (detection_dimensions : Nat × Nat) : Face :=
  { confidence := face_rect.score
    rectangle := Rect.with_size (f32RoundInt face_rect.x : ℚ)
      (f32RoundInt face_rect.y : ℚ) (f32RoundInt face_rect.w : ℚ)
      (f32RoundInt face_rect.h : ℚ)
    landmarks := FaceLandmarks.from_yunet_landmark_array face_rect.lm
    detection_dimensions := detection_dimensions }

/-- src/lib.rs: `Face::normalized_rectangle`.  Each pixel-space field is
divided by the matching detection dimension cast with `as f32`
(`detection_dimensions.0` is the width, `.1` the height; in the `Nat × Nat`
embedding these are `.1` and `.2`). -/
def Face.normalized_rectangle (f : Face) : Rect :=
  Rect.with_size
    (f.rectangle.x / (f32RoundPos f.detection_dimensions.1 : ℚ))
    (f.rectangle.y / (f32RoundPos f.detection_dimensions.2 : ℚ))
    (f.rectangle.w / (f32RoundPos f.detection_dimensions.1 : ℚ))
    (f.rectangle.h / (f32RoundPos f.detection_dimensions.2 : ℚ))

/-- src/lib.rs: `Face::size` is `rect.w.min(rect.h)` of the normalized
rectangle. -/
def Face.size (f : Face) : ℚ :=
  min f.normalized_rectangle.w f.normalized_rectangle.h

/-- The three `i32` arguments `detect_faces` forwards to
`wrapper_detect_faces`: `width as i32`, `height as i32`,
`3 * width as i32` (the cast binds tighter than the multiplication, and the
`i32` product wraps). -/
def bridge_call_args (width height : Nat) : Int × Int × Int :=
  (i32OfNat width, i32OfNat height, i32Wrap (3 * i32OfNat width))

/-- src/lib.rs: `detect_faces(bytes, width, height)`.  The opaque native
call is a parameter `detector`; the layer forwards the buffer and the
`bridge_call_args`, then maps every raw record through
`Face::from_yunet_bridge_face` with `(width, height)` as the detection
dimensions, wrapping the list in `Ok`. -/
def detect_faces (detector : List Nat → Int → Int → Int → List BridgeFace)
    (bytes : List Nat) (width height : Nat) :
    Except YuNetError (List Face) :=
  let faces := detector bytes (bridge_call_args width height).1
    (bridge_call_args width height).2.1 (bridge_call_args width height).2.2
  Except.ok (faces.map fun f => Face.from_yunet_bridge_face f (width, height))

/-! ## Helper lemmas about the cast models -/

/-- If `n < 2 ^ b` and the fuel suffices, the computed bit length is at most
`b`. -/
theorem bitLenAux_le : ∀ (fuel b n : Nat), n < 2 ^ b → b ≤ fuel → bitLenAux fuel n ≤ b
  | 0, b, n, hb, hf => by
      have hb0 : b = 0 := Nat.le_zero.mp hf
      subst hb0
      have hn : n = 0 := by omega
      subst hn
      simp [bitLenAux]
  | fuel + 1, b, n, hb, hf => by
      by_cases h0 : n = 0
      · subst h0
        simp [bitLenAux]
      · have hb1 : 1 ≤ b := by
          rcases Nat.eq_zero_or_pos b with h | h
          · subst h; simp at hb; omega
          · exact h
        have h2 : 2 ^ (b - 1) * 2 = 2 ^ b := by
          rw [← pow_succ]
          congr 1
          omega
        have hdiv : n / 2 < 2 ^ (b - 1) := by
          rw [Nat.div_lt_iff_lt_mul (by norm_num)]
          omega
        have ih := bitLenAux_le fuel (b - 1) (n / 2) hdiv (by omega)
        simp only [bitLenAux, h0, if_false]
        omega

/-- Naturals up to `2 ^ 24` have at most 24 significant bits, so the
single-precision rounding is exact on them. -/
theorem f32RoundPos_eq_of_le {m : Nat} (hm : m ≤ 2 ^ 24) : f32RoundPos m = m := by
  rcases Nat.lt_or_ge m (2 ^ 24) with h | h
  · have hlen : bitLen m ≤ 24 := bitLenAux_le 64 24 m h (by norm_num)
    have hk : bitLen m - 1 ≤ 23 := by omega
    simp [f32RoundPos, hk]
  · have hm24 : m = 2 ^ 24 := le_antisymm hm h
    subst hm24
    decide

/-- Integers of magnitude at most `2 ^ 24` are cast to `f32` exactly. -/
theorem f32RoundInt_eq_of_natAbs_le {n : Int} (hn : n.natAbs ≤ 2 ^ 24) :
    f32RoundInt n = n := by
  have h := f32RoundPos_eq_of_le hn
  unfold f32RoundInt
  rw [h]
  split <;> omega

/-- The two's-complement wrap is the identity on the `i32` range's
nonnegative half. -/
theorem i32Wrap_eq_of_lt {z : Int} (h0 : 0 ≤ z) (h1 : z < 2 ^ 31) : i32Wrap z = z := by
  have e32 : (2 : Int) ^ 32 = 4294967296 := by norm_num
  have e31 : (2 : Int) ^ 31 = 2147483648 := by norm_num
  unfold i32Wrap
  rw [e32, e31] at *
  rw [Int.emod_eq_of_lt (by omega) (by omega)]
  omega

/-! ## Claims -/

/-- C1: `detect_faces` returns `Ok` of a list with exactly one `Face` per raw
detection record, and the `i`-th `Face` is the conversion of the `i`-th raw
record through `Face::from_yunet_bridge_face` with `(width, height)` as the
detection dimensions — no reordering and no filtering. -/
theorem detect_faces_index_correspondence
    (detector : List Nat → Int → Int → Int → List BridgeFace)
    (bytes : List Nat) (width height : Nat) :
    ∃ faces : List Face,
      detect_faces detector bytes width height = Except.ok faces ∧
      faces.length = (detector bytes (bridge_call_args width height).1
        (bridge_call_args width height).2.1
        (bridge_call_args width height).2.2).length ∧
      ∀ i : Nat, faces[i]? = ((detector bytes (bridge_call_args width height).1
        (bridge_call_args width height).2.1
        (bridge_call_args width height).2.2)[i]?).map
          fun f => Face.from_yunet_bridge_face f (width, height) := by
  refine ⟨_, rfl, List.length_map _ _, fun i => ?_⟩
  exact List.getElem?_map _ _ _

/-- C2: `Face::from_yunet_bridge_face` is total and copies the score
verbatim into `confidence`, builds the rectangle from the raw `x`, `y`, `w`,
`h` by the `i32`-to-`f32` widening alone (no scaling, no clamping, no
validation — a negative raw width or height stays negative because the cast
is applied unchanged), and stores the detection dimensions unaltered. -/
theorem from_yunet_bridge_face_fields (bf : BridgeFace) (dd : Nat × Nat) :
    (Face.from_yunet_bridge_face bf dd).confidence = bf.score ∧
    (Face.from_yunet_bridge_face bf dd).rectangle =
      Rect.with_size (f32RoundInt bf.x : ℚ) (f32RoundInt bf.y : ℚ)
        (f32RoundInt bf.w : ℚ) (f32RoundInt bf.h : ℚ) ∧
    (Face.from_yunet_bridge_face bf dd).detection_dimensions = dd :=
  ⟨rfl, rfl, rfl⟩

/-- C3: `FaceLandmarks::from_yunet_landmark_array` maps the 10-element
signed-integer array `[a0..a9]` to `right_eye = (a0, a1)`,
`left_eye = (a2, a3)`, `nose = (a4, a5)`, `mouth_right = (a6, a7)`,
`mouth_left = (a8, a9)`, each component put through the `i32`-to-`f32`
conversion; on `[10, 20, 30, 40, 50, 60, 70, 80, 90, 100]` it yields
`right_eye = (10, 20)`, `left_eye = (30, 40)`, `nose = (50, 60)`,
`mouth_right = (70, 80)`, `mouth_left = (90, 100)`. -/
theorem from_yunet_landmark_array_spec :
    (∀ lm : Fin 10 → Int,
      FaceLandmarks.from_yunet_landmark_array lm =
        ⟨⟨(f32RoundInt (lm 0) : ℚ), (f32RoundInt (lm 1) : ℚ)⟩,
         ⟨(f32RoundInt (lm 2) : ℚ), (f32RoundInt (lm 3) : ℚ)⟩,
         ⟨(f32RoundInt (lm 4) : ℚ), (f32RoundInt (lm 5) : ℚ)⟩,
         ⟨(f32RoundInt (lm 6) : ℚ), (f32RoundInt (lm 7) : ℚ)⟩,
         ⟨(f32RoundInt (lm 8) : ℚ), (f32RoundInt (lm 9) : ℚ)⟩⟩) ∧
    FaceLandmarks.from_yunet_landmark_array (fun i => 10 * ((i : Nat) + 1)) =
      ⟨⟨10, 20⟩, ⟨30, 40⟩, ⟨50, 60⟩, ⟨70, 80⟩, ⟨90, 100⟩⟩ :=
  ⟨fun lm => rfl, by decide⟩

/-- C4 (amended): `normalized_rectangle` divides each pixel-space field by
the matching detection dimension converted to `f32`; whenever both stored
dimensions are at most `2 ^ 24` the conversion is exact, so the fields are
the pixel values divided by the stored dimensions themselves, and the
concrete example — dimensions `(200, 100)`, rectangle `(20, 10, 40, 20)` —
yields `(0.1, 0.1, 0.2, 0.2)`. -/
theorem normalized_rectangle_divides_dimensions (f : Face)
    (hw : f.detection_dimensions.1 ≤ 2 ^ 24) (hh : f.detection_dimensions.2 ≤ 2 ^ 24) :
    f.normalized_rectangle =
      Rect.with_size (f.rectangle.x / (f.detection_dimensions.1 : ℚ))
        (f.rectangle.y / (f.detection_dimensions.2 : ℚ))
        (f.rectangle.w / (f.detection_dimensions.1 : ℚ))
        (f.rectangle.h / (f.detection_dimensions.2 : ℚ)) ∧
    (Face.mk 1 (Rect.with_size 20 10 40 20) (200, 100)
      (FaceLandmarks.from_yunet_landmark_array fun _ => 0)).normalized_rectangle =
      Rect.with_size 0.1 0.1 0.2 0.2 := by
  constructor
  · rw [Face.normalized_rectangle, f32RoundPos_eq_of_le hw, f32RoundPos_eq_of_le hh]
  · have h200 : f32RoundPos 200 = 200 := by decide
    have h100 : f32RoundPos 100 = 100 := by decide
    simp [Face.normalized_rectangle, Rect.with_size, h200, h100, Rect.mk.injEq]
    norm_num

/-- C4 witness: the amended theorem applied to the concrete example face. -/
theorem normalized_rectangle_divides_dimensions_witness :
    ((Face.mk 1 (Rect.with_size 20 10 40 20) (200, 100)
        (FaceLandmarks.from_yunet_landmark_array fun _ => 0)).detection_dimensions.1 ≤ 2 ^ 24) ∧
    ((Face.mk 1 (Rect.with_size 20 10 40 20) (200, 100)
        (FaceLandmarks.from_yunet_landmark_array fun _ => 0)).detection_dimensions.2 ≤ 2 ^ 24) ∧
    (Face.mk 1 (Rect.with_size 20 10 40 20) (200, 100)
        (FaceLandmarks.from_yunet_landmark_array fun _ => 0)).normalized_rectangle =
      Rect.with_size ((20 : ℚ) / ((200 : Nat) : ℚ)) ((10 : ℚ) / ((100 : Nat) : ℚ))
        ((40 : ℚ) / ((200 : Nat) : ℚ)) ((20 : ℚ) / ((100 : Nat) : ℚ)) :=
  ⟨by decide, by decide,
    (normalized_rectangle_divides_dimensions
      (Face.mk 1 (Rect.with_size 20 10 40 20) (200, 100)
        (FaceLandmarks.from_yunet_landmark_array fun _ => 0))
      (by decide) (by decide)).1⟩

/-- C4 counterexample: with detection width `2 ^ 24 + 1 = 16777217` (exactly
representable as `usize` but not as `f32`) and pixel `x = 16777216`, the code
divides by the rounded width `16777216` and returns `1`, not
`16777216 / 16777217` as the claim's "divided by the stored detection width"
predicts. -/
theorem normalized_rectangle_cast_counterexample :
    (Face.mk 1 (Rect.with_size 16777216 0 0 0) (16777217, 1)
      (FaceLandmarks.from_yunet_landmark_array fun _ => 0)).normalized_rectangle.x ≠
    (Face.mk 1 (Rect.with_size 16777216 0 0 0) (16777217, 1)
      (FaceLandmarks.from_yunet_landmark_array fun _ => 0)).rectangle.x /
      (((Face.mk 1 (Rect.with_size 16777216 0 0 0) (16777217, 1)
        (FaceLandmarks.from_yunet_landmark_array fun _ => 0)).detection_dimensions.1 : Nat) : ℚ) := by
  have h1 : f32RoundPos 16777217 = 16777216 := by decide
  simp [Face.normalized_rectangle, Rect.with_size, h1]
  norm_num

/-- C5: `size` is the minimum of the normalized rectangle's `w` and `h`, and
on the face whose normalized rectangle is `(0.1, 0.1, 0.2, 0.2)` it yields
`0.2`. -/
theorem size_is_min_of_normalized :
    (∀ f : Face, f.size = min f.normalized_rectangle.w f.normalized_rectangle.h) ∧
    (Face.mk 1 (Rect.with_size 20 10 40 20) (200, 100)
      (FaceLandmarks.from_yunet_landmark_array fun _ => 0)).size = 0.2 := by
  refine ⟨fun f => rfl, ?_⟩
  have h200 : f32RoundPos 200 = 200 := by decide
  have h100 : f32RoundPos 100 = 100 := by decide
  simp [Face.size, Face.normalized_rectangle, Rect.with_size, h200, h100]
  norm_num

/-- C6: `detect_faces` always returns `Ok`, never `Err` of either declared
`YuNetError` kind, whatever the buffer, the dimensions, and the raw
sequence the native detector produces; a detector that finds nothing yields
`Ok` of the empty list. -/
theorem detect_faces_never_fails :
    (∀ (detector : List Nat → Int → Int → Int → List BridgeFace)
      (bytes : List Nat) (width height : Nat),
      ∃ faces : List Face,
        detect_faces detector bytes width height = Except.ok faces) ∧
    (∀ (detector : List Nat → Int → Int → Int → List BridgeFace)
      (bytes : List Nat) (width height : Nat) (e : YuNetError),
      detect_faces detector bytes width height ≠ Except.error e) ∧
    (∀ (bytes : List Nat) (width height : Nat),
      detect_faces (fun _ _ _ _ => []) bytes width height = Except.ok ([] : List Face)) :=
  ⟨fun detector bytes width height => ⟨_, rfl⟩,
   fun detector bytes width height e h => by simp [detect_faces] at h,
   fun bytes width height => rfl⟩

/-- C7 (amended): whenever `width` and `height` are below `2 ^ 31` and
`3 * width` does not overflow `i32`, the three arguments `detect_faces`
forwards to the native call are exactly `width`, `height` and `3 * width`.
(Outside that range the `usize as i32` casts and the `i32` product wrap, so
the unrestricted claim fails.) -/
theorem bridge_call_args_forwarding (width height : Nat)
    (hw : width < 2 ^ 31) (hh : height < 2 ^ 31) (hs : 3 * width < 2 ^ 31) :
    bridge_call_args width height = ((width : Int), (height : Int), ((3 * width : Nat) : Int)) := by
  have hwi : (width : Int) < 2 ^ 31 := by exact_mod_cast hw
  have hhi : (height : Int) < 2 ^ 31 := by exact_mod_cast hh
  have hsi : ((3 * width : Nat) : Int) < 2 ^ 31 := by exact_mod_cast hs
  have hwz : i32OfNat width = (width : Int) :=
    i32Wrap_eq_of_lt (Int.natCast_nonneg _) hwi
  have hhz : i32OfNat height = (height : Int) :=
    i32Wrap_eq_of_lt (Int.natCast_nonneg _) hhi
  have hsz : i32Wrap (3 * (width : Int)) = ((3 * width : Nat) : Int) := by
    rw [show (3 : Int) * (width : Int) = ((3 * width : Nat) : Int) by push_cast; ring]
    exact i32Wrap_eq_of_lt (Int.natCast_nonneg _) hsi
  simp [bridge_call_args, i32OfNat] at *
  simp [hwz, hhz, hsz]

/-- C7 witness: a 640 by 480 frame forwards `(640, 480, 1920)`. -/
theorem bridge_call_args_forwarding_witness :
    (640 : Nat) < 2 ^ 31 ∧ (480 : Nat) < 2 ^ 31 ∧ 3 * (640 : Nat) < 2 ^ 31 ∧
    bridge_call_args 640 480 = ((640 : Int), (480 : Int), (1920 : Int)) :=
  ⟨by norm_num, by norm_num, by norm_num, by
    have h := bridge_call_args_forwarding 640 480 (by norm_num) (by norm_num) (by norm_num)
    simpa using h⟩

/-- C7 counterexample: at `width = 2 ^ 31` the `usize as i32` cast wraps to
`-2 ^ 31`, so the width argument forwarded to the native detector is not the
call's `width`. -/
theorem bridge_call_args_wrap_counterexample :
    (bridge_call_args (2 ^ 31) 1).1 ≠ ((2 ^ 31 : Nat) : Int) := by
  decide

/-- C8 (amended): the `i32`-to-`f32` widening used for every landmark
component is lossless exactly on the integers of magnitude at most `2 ^ 24`;
for such arrays the constructed landmark components equal the original
integers.  (Beyond `2 ^ 24` the 24-bit significand forces rounding, so the
full-`i32`-range claim fails.) -/
theorem landmark_widening_lossless_small (lm : Fin 10 → Int)
    (h : ∀ i : Fin 10, (lm i).natAbs ≤ 2 ^ 24) :
    FaceLandmarks.from_yunet_landmark_array lm =
      ⟨⟨((lm 0 : Int) : ℚ), ((lm 1 : Int) : ℚ)⟩, ⟨((lm 2 : Int) : ℚ), ((lm 3 : Int) : ℚ)⟩,
       ⟨((lm 4 : Int) : ℚ), ((lm 5 : Int) : ℚ)⟩, ⟨((lm 6 : Int) : ℚ), ((lm 7 : Int) : ℚ)⟩,
       ⟨((lm 8 : Int) : ℚ), ((lm 9 : Int) : ℚ)⟩⟩ := by
  unfold FaceLandmarks.from_yunet_landmark_array
  simp only [f32RoundInt_eq_of_natAbs_le (h _)]

/-- C8 witness: the amended theorem applied to the in-range array
`[10, 20, ..., 100]`. -/
theorem landmark_widening_lossless_small_witness :
    (∀ i : Fin 10, (((fun j => 10 * ((j : Nat) + 1) : Fin 10 → Int)) i).natAbs ≤ 2 ^ 24) ∧
    FaceLandmarks.from_yunet_landmark_array (fun j => 10 * ((j : Nat) + 1)) =
      ⟨⟨10, 20⟩, ⟨30, 40⟩, ⟨50, 60⟩, ⟨70, 80⟩, ⟨90, 100⟩⟩ :=
  ⟨by decide,
    (landmark_widening_lossless_small (fun j => 10 * ((j : Nat) + 1)) (by decide)).trans
      (by decide)⟩

/-- C8 counterexample: the landmark component `2 ^ 24 + 1 = 16777217` is a
valid `i32` but is not representable in `f32`; the widening rounds it to
`16777216`, so the constructed component differs from the original integer. -/
theorem landmark_widening_lossy_counterexample :
    (FaceLandmarks.from_yunet_landmark_array fun _ => 16777217).right_eye.x ≠
      ((16777217 : Int) : ℚ) := by
  decide

/-- C9 (amended): `size` is invariant under scaling the rectangle and the
detection dimensions by a positive integer `k`, provided both scaled
dimensions stay within `2 ^ 24`, where the `usize as f32` cast is exact.
(When a scaled dimension exceeds `2 ^ 24` the cast rounds it and invariance
fails.) -/
theorem size_scale_invariant (f : Face) (k : Nat) (hk : 0 < k)
    (hw : k * f.detection_dimensions.1 ≤ 2 ^ 24)
    (hh : k * f.detection_dimensions.2 ≤ 2 ^ 24) :
    (Face.mk f.confidence
      (Rect.with_size ((k : ℚ) * f.rectangle.x) ((k : ℚ) * f.rectangle.y)
        ((k : ℚ) * f.rectangle.w) ((k : ℚ) * f.rectangle.h))
      (k * f.detection_dimensions.1, k * f.detection_dimensions.2)
      f.landmarks).size = f.size := by
  have hw1 : f.detection_dimensions.1 ≤ 2 ^ 24 := le_trans (Nat.le_mul_of_pos_left _ hk) hw
  have hh1 : f.detection_dimensions.2 ≤ 2 ^ 24 := le_trans (Nat.le_mul_of_pos_left _ hk) hh
  have hkq : (k : ℚ) ≠ 0 := by exact_mod_cast hk.ne'
  simp only [Face.size, Face.normalized_rectangle, Rect.with_size,
    f32RoundPos_eq_of_le hw, f32RoundPos_eq_of_le hh,
    f32RoundPos_eq_of_le hw1, f32RoundPos_eq_of_le hh1]
  push_cast
  rw [mul_div_mul_left _ _ hkq, mul_div_mul_left _ _ hkq]

/-- C9 witness: doubling an 8 by 6 detection leaves `size` unchanged. -/
theorem size_scale_invariant_witness :
    (0 < 2) ∧ (2 * (8 : Nat) ≤ 2 ^ 24) ∧ (2 * (6 : Nat) ≤ 2 ^ 24) ∧
    (Face.mk 1
      (Rect.with_size ((2 : ℚ) * 1) ((2 : ℚ) * 2) ((2 : ℚ) * 3) ((2 : ℚ) * 4))
      (2 * 8, 2 * 6)
      (FaceLandmarks.from_yunet_landmark_array fun _ => 0)).size =
    (Face.mk 1 (Rect.with_size 1 2 3 4) (8, 6)
      (FaceLandmarks.from_yunet_landmark_array fun _ => 0)).size :=
  ⟨by norm_num, by norm_num, by norm_num,
    size_scale_invariant
      (Face.mk 1 (Rect.with_size 1 2 3 4) (8, 6)
        (FaceLandmarks.from_yunet_landmark_array fun _ => 0))
      2 (by norm_num) (by norm_num) (by norm_num)⟩

/-- C9 counterexample: scaling the unit-rectangle face with dimensions
`(11000011, 11000011)` by `k = 3` changes `size`: the scaled dimension
`33000033` is rounded by the `usize as f32` cast to `33000032`, giving
`3 / 33000032` instead of `1 / 11000011 = 3 / 33000033`. -/
theorem size_not_scale_invariant_counterexample :
    (Face.mk 1 (Rect.with_size ((3 : ℚ) * 1) ((3 : ℚ) * 1) ((3 : ℚ) * 1) ((3 : ℚ) * 1))
      (3 * 11000011, 3 * 11000011)
      (FaceLandmarks.from_yunet_landmark_array fun _ => 0)).size ≠
    (Face.mk 1 (Rect.with_size 1 1 1 1) (11000011, 11000011)
      (FaceLandmarks.from_yunet_landmark_array fun _ => 0)).size := by
  have h1 : f32RoundPos 33000033 = 33000032 := by decide
  have h2 : f32RoundPos 11000011 = 11000011 := by decide
  simp [Face.size, Face.normalized_rectangle, Rect.with_size]
  norm_num [h1, h2]

/-- C10: the conversion layer is deterministic — two calls whose detectors
return the same raw sequence for the forwarded arguments produce identical
`Face` sequences, and every accessor is a pure function of the `Face`
value. -/
theorem conversion_deterministic :
    (∀ (d1 d2 : List Nat → Int → Int → Int → List BridgeFace)
      (b1 b2 : List Nat) (width height : Nat),
      d1 b1 (bridge_call_args width height).1 (bridge_call_args width height).2.1
          (bridge_call_args width height).2.2 =
        d2 b2 (bridge_call_args width height).1 (bridge_call_args width height).2.1
          (bridge_call_args width height).2.2 →
      detect_faces d1 b1 width height = detect_faces d2 b2 width height) ∧
    (∀ f g : Face, f = g →
      f.confidence = g.confidence ∧ f.rectangle = g.rectangle ∧
      f.normalized_rectangle = g.normalized_rectangle ∧ f.size = g.size ∧
      f.landmarks = g.landmarks) := by
  constructor
  · intro d1 d2 b1 b2 width height h
    simp only [detect_faces, h]
  · rintro f g rfl
    exact ⟨rfl, rfl, rfl, rfl, rfl⟩

/-- C10 witness: the determinism theorem applied to a concrete empty
detector and to a concrete `Face`. -/
theorem conversion_deterministic_witness :
    detect_faces (fun _ _ _ _ => []) [] 1 1 = detect_faces (fun _ _ _ _ => []) [] 1 1 ∧
    ((Face.mk 1 (Rect.with_size 1 2 3 4) (5, 6)
        (FaceLandmarks.from_yunet_landmark_array fun _ => 0)).confidence =
      (Face.mk 1 (Rect.with_size 1 2 3 4) (5, 6)
        (FaceLandmarks.from_yunet_landmark_array fun _ => 0)).confidence ∧
     (Face.mk 1 (Rect.with_size 1 2 3 4) (5, 6)
        (FaceLandmarks.from_yunet_landmark_array fun _ => 0)).rectangle =
      (Face.mk 1 (Rect.with_size 1 2 3 4) (5, 6)
        (FaceLandmarks.from_yunet_landmark_array fun _ => 0)).rectangle ∧
     (Face.mk 1 (Rect.with_size 1 2 3 4) (5, 6)
        (FaceLandmarks.from_yunet_landmark_array fun _ => 0)).normalized_rectangle =
      (Face.mk 1 (Rect.with_size 1 2 3 4) (5, 6)
        (FaceLandmarks.from_yunet_landmark_array fun _ => 0)).normalized_rectangle ∧
     (Face.mk 1 (Rect.with_size 1 2 3 4) (5, 6)
        (FaceLandmarks.from_yunet_landmark_array fun _ => 0)).size =
      (Face.mk 1 (Rect.with_size 1 2 3 4) (5, 6)
        (FaceLandmarks.from_yunet_landmark_array fun _ => 0)).size ∧
     (Face.mk 1 (Rect.with_size 1 2 3 4) (5, 6)
        (FaceLandmarks.from_yunet_landmark_array fun _ => 0)).landmarks =
      (Face.mk 1 (Rect.with_size 1 2 3 4) (5, 6)
        (FaceLandmarks.from_yunet_landmark_array fun _ => 0)).landmarks) :=
  ⟨conversion_deterministic.1 (fun _ _ _ _ => []) (fun _ _ _ _ => []) [] [] 1 1 rfl,
   conversion_deterministic.2 _ _ rfl⟩
